import Mathlib

/-
Shallow embedding of src/gns3/modules/virtualbox/virtualbox_vm.py
(class VirtualBoxVM of the gns3-gui repository), together with proofs
about its settings handling, port construction and string formatting.
-/

/-- Python values as they occur in the VirtualBox VM settings
dictionaries: None, booleans, integers and strings. -/
inductive PyVal where
  | none
  | bool (b : Bool)
  | int (n : Int)
  | str (s : String)
deriving DecidableEq, Repr

/-- Python truthiness of a PyVal. -/
def PyVal.truthy : PyVal → Bool
  | PyVal.none => false
  | PyVal.bool b => b
  | PyVal.int n => decide (n ≠ 0)
  | PyVal.str s => decide (s ≠ "")

/-- Reading a settings value as an adapter count, the way
range(adapters) consumes it: a non-positive integer yields no loop
iterations, which Int.toNat reproduces. -/
def PyVal.toAdapterCount : PyVal → Nat
  | PyVal.int n => n.toNat
  | _ => 0

/-- Python str() on a PyVal, as used by the string formatting in info(). -/
def PyVal.pyStr : PyVal → String
  | PyVal.none => "None"
  | PyVal.bool true => "True"
  | PyVal.bool false => "False"
  | PyVal.int n => toString n
  | PyVal.str s => s

/-- Python dictionaries are modelled as insertion-ordered association
lists from string keys to PyVal values. -/
abbrev PyDict := List (String × PyVal)

/-- Dictionary lookup: d[k], and k in d via Option.isSome. -/
def getKey : PyDict → String → Option PyVal
  | [], _ => Option.none
  | (k', v) :: rest, k => if k' = k then some v else getKey rest k

/-- Dictionary assignment d[k] = v: replaces the value in place when the
key exists, otherwise appends the pair at the end (insertion order). -/
def setKey : PyDict → String → PyVal → PyDict
  | [], k, v => [(k, v)]
  | (k', v') :: rest, k, v =>
    if k' = k then (k, v) :: rest else (k', v') :: setKey rest k v

/-- Python dict.update: folds the entries of the second dict into the
first one. -/
def dictUpdate (m other : PyDict) : PyDict :=
  other.foldl (fun acc kv => setKey acc kv.1 kv.2) m

/-- Modelled from the spec: an EthernetPort object as used by this class.
The port class itself is an external collaborator
(gns3.ports.ethernet_port, not part of this file); VirtualBoxVM only sets
a port's name, adapter number and port number, and reads isFree and
description when formatting info(). A freshly constructed port is free
with an empty description. -/
structure EthernetPort where
  name : String
  adapterNumber : Nat
  portNumber : Nat
  isFree : Bool := true
  description : String := ""
deriving DecidableEq, Repr

/-- The port-naming attributes of a VirtualBoxVM instance:
_port_name_format, _port_segment_size and _first_port_name. The Python
format string is abstracted as a function of the two numbers it is
applied to, interface_number and segment_number (the keyword arguments
port0, port1, segment0 and segment1 are functions of those same two
numbers). -/
structure PortNaming where
  port_name_format : Nat → Nat → String
  port_segment_size : Nat
  first_port_name : Option String

/-- Truthiness of the _first_port_name attribute (None or a string). -/
def firstPortTruthy : Option String → Bool
  | Option.none => false
  | some s => decide (s ≠ "")

/-- The mutable state of a VirtualBoxVM node that this file touches: the
settings dict, the port list, the linked-clone flag and the naming
attributes. -/
structure VirtualBoxVMState where
  settings : PyDict
  ports : List EthernetPort
  linked_clone : Bool
  naming : PortNaming

/-- One loop iteration of VirtualBoxVM._addAdapters: the port name for
the given adapter number, computed from the current (interface_number,
segment_number) counters, together with the updated counters. The first
adapter takes _first_port_name verbatim when that attribute is truthy,
without touching the counters; otherwise the name is formatted from the
counters, interface_number is incremented, and when a segment size is
configured and the incremented interface number is a multiple of it the
segment number is incremented and the interface number reset to zero. -/
def portNameStep (naming : PortNaming) (adapter_number : Nat) (st : Nat × Nat) :
    String × Nat × Nat :=
  if firstPortTruthy naming.first_port_name = true ∧ adapter_number = 0 then
    (naming.first_port_name.getD "", st)
  else
    if naming.port_segment_size ≠ 0 ∧ (st.1 + 1) % naming.port_segment_size = 0 then
      (naming.port_name_format st.1 st.2, 0, st.2 + 1)
    else
      (naming.port_name_format st.1 st.2, st.1 + 1, st.2)

/-- The loop of VirtualBoxVM._addAdapters, producing the list of ports
that get appended, starting at the given adapter number with the given
counters. -/
def addAdaptersGo (naming : PortNaming) : Nat → Nat → Nat × Nat → List EthernetPort
  | _, 0, _ => []
  | adapter_number, remaining + 1, st =>
    { name := (portNameStep naming adapter_number st).1,
      adapterNumber := adapter_number,
      portNumber := 0 } ::
      addAdaptersGo naming (adapter_number + 1) remaining (portNameStep naming adapter_number st).2

/-- VirtualBoxVM._addAdapters(adapters): appends one port per adapter to
the port list, with adapter numbers counting from 0 and every port
number 0. -/
def addAdapters (naming : PortNaming) (adapters : Nat) (ports : List EthernetPort) :
    List EthernetPort :=
  ports ++ addAdaptersGo naming 0 adapters (0, 0)

/-- Modelled from the spec: the shared defaults table VBOX_VM_SETTINGS
(imported from the module's settings file, which is outside this file).
The spec only says that the adapter count, use-any-adapter flag, adapter
type, RAM size, headless flag, ACPI-shutdown flag and remote-console
flag default to the values of this shared table, so the table is kept
abstract as a structure of arbitrary values. -/
structure VBoxVMSettingsTable where
  adapters : PyVal
  use_any_adapter : PyVal
  adapter_type : PyVal
  ram : PyVal
  headless : PyVal
  acpi_shutdown : PyVal
  enable_remote_console : PyVal

/-- The virtualbox_vm_settings dict built in VirtualBoxVM.__init__. -/
def initSettingsDict (tbl : VBoxVMSettingsTable) : PyDict :=
  [("vmname", PyVal.str ""),
   ("console", PyVal.none),
   ("console_host", PyVal.none),
   ("adapters", tbl.adapters),
   ("use_any_adapter", tbl.use_any_adapter),
   ("adapter_type", tbl.adapter_type),
   ("ram", tbl.ram),
   ("headless", tbl.headless),
   ("acpi_shutdown", tbl.acpi_shutdown),
   ("enable_remote_console", tbl.enable_remote_console)]

/-- VirtualBoxVM.__init__: the base Node class (an external collaborator
that, per the spec, provides the settings storage and starts the node
with no ports) contributes some base settings dict; the constructor sets
the local attributes to their defaults (_linked_clone = False,
_port_name_format = the Ethernet default, _port_segment_size = 0,
_first_port_name = None) and merges the VM settings dict into the stored
settings. The default format string Ethernet plus placeholder 0 renders
the interface number after the word Ethernet. -/
def initState (tbl : VBoxVMSettingsTable) (base : PyDict) : VirtualBoxVMState :=
  { settings := dictUpdate base (initSettingsDict tbl),
    ports := [],
    linked_clone := false,
    naming := { port_name_format := fun i _ => "Ethernet" ++ toString i,
                port_segment_size := 0,
                first_port_name := Option.none } }

/-- The outcome of VirtualBoxVM.create: the updated local state, the node
name passed to the generic _create dispatch, and the params dict passed
along with it. -/
structure CreateResult where
  state : VirtualBoxVMState
  name : String
  params : PyDict

/-- VirtualBoxVM.create(vmname, name, ...): defaults the node name to
vmname when the name argument is falsy (None or the empty string),
records the linked-clone flag and the naming attributes, and builds the
params dict from vmname and linked_clone updated with
additional_settings. All server-side work is delegated to the generic
_create dispatch, mirrored here by returning its arguments. -/
def create (st : VirtualBoxVMState) (vmname : String) (name : Option String)
    (port_name_format : Nat → Nat → String) (port_segment_size : Nat)
    (first_port_name : String) (linked_clone : Bool)
    (additional_settings : PyDict) : CreateResult :=
  { state := { st with
      linked_clone := linked_clone,
      naming := { port_name_format := port_name_format,
                  port_segment_size := port_segment_size,
                  first_port_name := some first_port_name } },
    name := match name with
      | Option.none => vmname
      | some s => if s = "" then vmname else s,
    params := dictUpdate
      [("vmname", PyVal.str vmname), ("linked_clone", PyVal.bool linked_clone)]
      additional_settings }

/-- The current adapter count read from the settings dict, as
self._settings.get("adapters", 0) reads it. -/
def adaptersCount (settings : PyDict) : Nat :=
  ((getKey settings "adapters").getD (PyVal.int 0)).toAdapterCount

/-- VirtualBoxVM._createCallback: creates the ports on the client side by
appending one port per adapter of the current "adapters" setting. -/
def createCallback (st : VirtualBoxVMState) : VirtualBoxVMState :=
  { st with ports := addAdapters st.naming (adaptersCount st.settings) st.ports }

/-- The first half of VirtualBoxVM.update: when new_settings carries a
"name" entry different from the current node name and the VM is a linked
clone, the "vmname" entry is forced to that new name. -/
def forcedSettings (st : VirtualBoxVMState) (currentName : String)
    (new_settings : PyDict) : PyDict :=
  match getKey new_settings "name" with
  | some v =>
    if v ≠ PyVal.str currentName ∧ st.linked_clone = true then
      setKey new_settings "vmname" v
    else new_settings
  | Option.none => new_settings

/-- Whether one new_settings entry passes the params filter of
VirtualBoxVM.update: its key exists in the stored settings and its value
differs from the stored one. -/
def changedPred (settings : PyDict) (kv : String × PyVal) : Bool :=
  match getKey settings kv.1 with
  | some w => decide (w ≠ kv.2)
  | Option.none => false

/-- The params dict built by the loop in VirtualBoxVM.update. -/
def updateParams (st : VirtualBoxVMState) (currentName : String)
    (new_settings : PyDict) : PyDict :=
  (forcedSettings st currentName new_settings).foldl
    (fun acc kv => if changedPred st.settings kv = true then setKey acc kv.1 kv.2 else acc)
    []

/-- VirtualBoxVM.update(new_settings): applies the vmname forcing,
collects into params the entries whose key exists in the stored settings
with a different value, and calls the generic _update dispatch only when
params is non-empty. The return value is the params dict sent to the
server, or Option.none when no update request is issued. -/
def update (st : VirtualBoxVMState) (currentName : String)
    (new_settings : PyDict) : Option PyDict :=
  if updateParams st currentName new_settings = [] then Option.none
  else some (updateParams st currentName new_settings)

/-- The settings loop of VirtualBoxVM._updateCallback: walks the server
result, assigns every entry whose key exists in the stored settings with
a different value, and records in the boolean whether the "adapters"
entry was assigned (nb_adapters_changed). -/
def applyResultGo (settings : PyDict) (nb_adapters_changed : Bool) :
    PyDict → PyDict × Bool
  | [] => (settings, nb_adapters_changed)
  | (k, v) :: rest =>
    match getKey settings k with
    | some w =>
      if w ≠ v then
        applyResultGo (setKey settings k v) (nb_adapters_changed || decide (k = "adapters")) rest
      else
        applyResultGo settings nb_adapters_changed rest
    | Option.none => applyResultGo settings nb_adapters_changed rest

/-- VirtualBoxVM._updateCallback(result): applies the server result to
the stored settings and, when the number of adapters changed, clears the
port list and rebuilds it for the new adapter count. -/
def updateCallback (st : VirtualBoxVMState) (result : PyDict) : VirtualBoxVMState :=
  if (applyResultGo st.settings false result).2 = true then
    { st with
      settings := (applyResultGo st.settings false result).1,
      ports := addAdapters st.naming
        (adaptersCount (applyResultGo st.settings false result).1) [] }
  else
    { st with settings := (applyResultGo st.settings false result).1 }

/-- The status constants of the base Node class. Modelled from the spec:
the base Node abstraction (not part of this file) carries the node
status; this class only compares it with the started constant and treats
every other status as stopped. -/
inductive NodeStatus where
  | created
  | started
  | stopped
  | suspended
deriving DecidableEq, Repr

/-- The state word computed at the start of VirtualBoxVM.info(). -/
def stateWordOf (status : NodeStatus) : String :=
  if status = NodeStatus.started then "started" else "stopped"

/-- VirtualBoxVM.info(): the formatted status text. The surrounding Node
accessors (name, local id, server node id, compute id and status) are
external collaborators and are passed as arguments; the vmname, ram and
console values are read from the settings dict, whose construction
always populates those keys. -/
def info (st : VirtualBoxVMState) (name : String) (localId : Int)
    (node_id : String) (computeId : String) (status : NodeStatus) : String :=
  "VirtualBox VM " ++ name ++ " is " ++ stateWordOf status ++ "\n" ++
  "  Local node ID is " ++ toString localId ++ "\n" ++
  "  Server's node ID is " ++ node_id ++ "\n" ++
  "  VirtualBox name is \"" ++ ((getKey st.settings "vmname").getD PyVal.none).pyStr ++ "\"\n" ++
  "  RAM is " ++ ((getKey st.settings "ram").getD PyVal.none).pyStr ++ " MB\n" ++
  "  VirtualBox VM's server runs on " ++ computeId ++
  ", console is on port " ++ ((getKey st.settings "console").getD PyVal.none).pyStr ++ "\n" ++
  st.ports.foldl
    (fun acc port =>
      acc ++ (if port.isFree = true then
                "     " ++ port.name ++ " is empty\n"
              else
                "     " ++ port.name ++ " " ++ port.description ++ "\n"))
    ""

/-- VirtualBoxVM.serialConsole(): False when the enable_remote_console
setting is truthy, True otherwise; Option.none models the KeyError on a
missing key. -/
def serialConsole (st : VirtualBoxVMState) : Option Bool :=
  match getKey st.settings "enable_remote_console" with
  | some v => if v.truthy = true then some false else some true
  | Option.none => Option.none

/-- The port line of VirtualBoxVM.info() for one port: the port name
followed by "is empty" when the port is free, otherwise the port name
with its description. -/
def portLineOf (port : EthernetPort) : String :=
  if port.isFree = true then "     " ++ port.name ++ " is empty\n"
  else "     " ++ port.name ++ " " ++ port.description ++ "\n"

/-- The concatenation of the per-port lines of info(). -/
def portInfoLines : List EthernetPort → String
  | [] => ""
  | port :: rest => portLineOf port ++ portInfoLines rest

/-- The header block of info() with a given state word. -/
def infoHeader (st : VirtualBoxVMState) (name : String) (localId : Int)
    (node_id : String) (computeId : String) (stateWord : String) : String :=
  "VirtualBox VM " ++ name ++ " is " ++ stateWord ++ "\n" ++
  "  Local node ID is " ++ toString localId ++ "\n" ++
  "  Server's node ID is " ++ node_id ++ "\n" ++
  "  VirtualBox name is \"" ++ ((getKey st.settings "vmname").getD PyVal.none).pyStr ++ "\"\n" ++
  "  RAM is " ++ ((getKey st.settings "ram").getD PyVal.none).pyStr ++ " MB\n" ++
  "  VirtualBox VM's server runs on " ++ computeId ++
  ", console is on port " ++ ((getKey st.settings "console").getD PyVal.none).pyStr ++ "\n"

/-- Whether a server result changes the "adapters" entry of the stored
settings: the key is present in the result and present in the settings
with a different value. -/
def changesAdapters (settings result : PyDict) : Bool :=
  match getKey result "adapters", getKey settings "adapters" with
  | some v, some w => decide (w ≠ v)
  | _, _ => false

/-- The port-list shape stated by the spec's invariant: one port per
adapter of the current "adapters" setting, with adapter numbers
0..adapters-1 in order and every port number 0. -/
def portsInvariant (st : VirtualBoxVMState) : Prop :=
  st.ports.map EthernetPort.adapterNumber = List.range (adaptersCount st.settings) ∧
  ∀ port ∈ st.ports, port.portNumber = 0

/-- The interface number the code passes to the format call of the m-th
formatted (non-override) port: it increments once per formatted port but
resets to zero every port_segment_size formatted ports when a segment
size is configured. -/
def formattedIndex (s m : Nat) : Nat := if s = 0 then m else m % s

/-- The segment number the code passes to the format call of the m-th
formatted (non-override) port: it increments every port_segment_size
formatted ports when a segment size is configured, else stays 0. -/
def formattedSegment (s m : Nat) : Nat := if s = 0 then 0 else m / s

/-- The (interface_number, segment_number) counter pair before the m-th
formatted port is produced. -/
def counterPair (s m : Nat) : Nat × Nat := (formattedIndex s m, formattedSegment s m)

/-- The name the code gives to the m-th formatted (non-override) port. -/
def codePortName (naming : PortNaming) (m : Nat) : String :=
  naming.port_name_format (formattedIndex naming.port_segment_size m)
    (formattedSegment naming.port_segment_size m)

/-- The amended naming formula: with a truthy first-port override the
port of adapter 0 takes the override string and consumes no interface
index, so the port of adapter k is the (k-1)-th formatted port; without
an override the port of adapter k is the k-th formatted port. -/
def expectedPortName (naming : PortNaming) (k : Nat) : String :=
  if firstPortTruthy naming.first_port_name = true then
    if k = 0 then naming.first_port_name.getD "" else codePortName naming (k - 1)
  else codePortName naming k

/-- The port-name formula exactly as claim C2 words it: the interface
index increments once per adapter (hence equals the adapter number), the
segment counter increments every port_segment_size adapters when a
segment size is configured, and the override only replaces the first
port's name. -/
def claimPortName (naming : PortNaming) (k : Nat) : String :=
  if firstPortTruthy naming.first_port_name = true ∧ k = 0 then
    naming.first_port_name.getD ""
  else
    naming.port_name_format k
      (if naming.port_segment_size = 0 then 0 else k / naming.port_segment_size)

/-- A sample naming configuration (the defaults of create()). -/
def sampleNaming : PortNaming :=
  { port_name_format := fun i _ => "Ethernet" ++ toString i,
    port_segment_size := 0,
    first_port_name := Option.none }

/-- A sample node state used to instantiate the theorems below. -/
def sampleState : VirtualBoxVMState :=
  { settings := [("adapters", PyVal.int 2), ("vmname", PyVal.str "vm1"),
                 ("ram", PyVal.int 256), ("console", PyVal.none),
                 ("enable_remote_console", PyVal.bool true)],
    ports := [],
    linked_clone := true,
    naming := sampleNaming }

/-- A segmented naming configuration exercising the counter reset. -/
def segmentedNaming : PortNaming :=
  { port_name_format := fun i s => "E" ++ toString s ++ "/" ++ toString i,
    port_segment_size := 2,
    first_port_name := Option.none }

/-- A sample shared-settings table. -/
def sampleTable : VBoxVMSettingsTable :=
  { adapters := PyVal.int 1,
    use_any_adapter := PyVal.bool false,
    adapter_type := PyVal.str "Intel PRO/1000 MT Desktop (82540EM)",
    ram := PyVal.int 256,
    headless := PyVal.bool false,
    acpi_shutdown := PyVal.bool false,
    enable_remote_console := PyVal.bool false }

theorem getKey_setKey_self (m : PyDict) (k : String) (v : PyVal) :
    getKey (setKey m k v) k = some v := by
  induction m with
  | nil => simp [setKey, getKey]
  | cons kv rest ih =>
    obtain ⟨k', v'⟩ := kv
    by_cases h : k' = k
    · subst h
      simp [setKey, getKey]
    · simp [setKey, getKey, h, ih]

theorem getKey_setKey_ne (m : PyDict) (k k' : String) (v : PyVal) (h : k' ≠ k) :
    getKey (setKey m k v) k' = getKey m k' := by
  induction m with
  | nil => simp [setKey, getKey, Ne.symm h]
  | cons kv rest ih =>
    obtain ⟨k1, v1⟩ := kv
    by_cases h1 : k1 = k
    · subst h1
      simp [setKey, getKey, Ne.symm h]
    · by_cases h2 : k1 = k'
      · subst h2
        simp [setKey, getKey, h1]
      · simp [setKey, getKey, h1, h2, ih]

theorem getKey_eq_none_of_not_mem (m : PyDict) (k : String)
    (h : k ∉ m.map Prod.fst) : getKey m k = Option.none := by
  induction m with
  | nil => rfl
  | cons kv rest ih =>
    obtain ⟨k1, v1⟩ := kv
    simp only [List.map_cons, List.mem_cons, not_or] at h
    have h1 : k1 ≠ k := fun hh => h.1 hh.symm
    simp [getKey, h1, ih h.2]

theorem setKey_eq_append (m : PyDict) (k : String) (v : PyVal)
    (h : getKey m k = Option.none) : setKey m k v = m ++ [(k, v)] := by
  induction m with
  | nil => rfl
  | cons kv rest ih =>
    obtain ⟨k1, v1⟩ := kv
    by_cases hk : k1 = k
    · subst hk
      simp [getKey] at h
    · simp only [getKey, if_neg hk] at h
      simp [setKey, hk, ih h]

theorem getKey_append_of_none (m m2 : PyDict) (k : String)
    (h : getKey m k = Option.none) : getKey (m ++ m2) k = getKey m2 k := by
  induction m with
  | nil => rfl
  | cons kv rest ih =>
    obtain ⟨k1, v1⟩ := kv
    by_cases hk : k1 = k
    · simp [getKey, hk] at h
    · simp only [getKey, if_neg hk] at h
      simpa [getKey, hk] using ih h

theorem mem_keys_setKey (m : PyDict) (k k' : String) (v : PyVal) :
    k' ∈ (setKey m k v).map Prod.fst ↔ k' ∈ m.map Prod.fst ∨ k' = k := by
  induction m with
  | nil => simp [setKey]
  | cons kv rest ih =>
    obtain ⟨k1, v1⟩ := kv
    by_cases hk : k1 = k
    · subst hk
      simp [setKey]
      tauto
    · simp [setKey, hk, ih]
      tauto

theorem keys_nodup_setKey (m : PyDict) (k : String) (v : PyVal)
    (h : (m.map Prod.fst).Nodup) : ((setKey m k v).map Prod.fst).Nodup := by
  induction m with
  | nil => simp [setKey]
  | cons kv rest ih =>
    obtain ⟨k1, v1⟩ := kv
    simp only [List.map_cons, List.nodup_cons] at h
    by_cases hk : k1 = k
    · subst hk
      have hs : setKey ((k1, v1) :: rest) k1 v = (k1, v) :: rest := by
        simp [setKey]
      rw [hs]
      simp only [List.map_cons, List.nodup_cons]
      exact ⟨h.1, h.2⟩
    · simp only [setKey, if_neg hk, List.map_cons, List.nodup_cons]
      refine ⟨?_, ih h.2⟩
      rw [mem_keys_setKey]
      rintro (hmem | rfl)
      · exact h.1 hmem
      · exact hk rfl

theorem getKey_dictUpdate (m other : PyDict) (k : String)
    (h : (other.map Prod.fst).Nodup) :
    getKey (dictUpdate m other) k =
      match getKey other k with
      | some v => some v
      | Option.none => getKey m k := by
  induction other generalizing m with
  | nil => rfl
  | cons kv rest ih =>
    obtain ⟨k1, v1⟩ := kv
    simp only [List.map_cons, List.nodup_cons] at h
    have step : dictUpdate m ((k1, v1) :: rest) = dictUpdate (setKey m k1 v1) rest := rfl
    rw [step, ih _ h.2]
    by_cases hk : k1 = k
    · subst hk
      have hrest : getKey rest k1 = Option.none := getKey_eq_none_of_not_mem _ _ h.1
      simp [getKey, hrest, getKey_setKey_self]
    · cases hres : getKey rest k with
      | none =>
        simp [getKey, hk, hres, getKey_setKey_ne _ _ _ _ (fun hh => hk hh.symm)]
      | some w =>
        simp [getKey, hk, hres]

theorem applyResultGo_flag_true (settings : PyDict) (result : PyDict) :
    (applyResultGo settings true result).2 = true := by
  induction result generalizing settings with
  | nil => rfl
  | cons kv rest ih =>
    obtain ⟨k, v⟩ := kv
    cases hres : getKey settings k with
    | none => simp only [applyResultGo, hres]; exact ih settings
    | some w =>
      by_cases hw : w = v
      · subst hw
        simp only [applyResultGo, hres, if_neg (fun hh : w ≠ w => hh rfl)]
        exact ih settings
      · simp only [applyResultGo, hres, if_pos hw]
        simpa using ih (setKey settings k v)

theorem applyResultGo_adapters_of_flag_false (result : PyDict) :
    ∀ (settings : PyDict) (b : Bool),
      (applyResultGo settings b result).2 = false →
      getKey (applyResultGo settings b result).1 "adapters" = getKey settings "adapters" := by
  induction result with
  | nil => intro settings b _; rfl
  | cons kv rest ih =>
    intro settings b h
    obtain ⟨k, v⟩ := kv
    cases hres : getKey settings k with
    | none =>
      simp only [applyResultGo, hres] at h ⊢
      exact ih settings b h
    | some w =>
      by_cases hw : w = v
      · subst hw
        simp only [applyResultGo, hres, if_neg (fun hh : w ≠ w => hh rfl)] at h ⊢
        exact ih settings b h
      · by_cases hk : k = "adapters"
        · subst hk
          simp only [applyResultGo, hres, if_pos hw] at h
          have hb : (b || decide True) = true := by simp
          rw [hb, applyResultGo_flag_true] at h
          simp at h
        · simp only [applyResultGo, hres, if_pos hw] at h ⊢
          rw [ih _ _ h]
          exact getKey_setKey_ne _ _ _ _ (fun hh => hk hh.symm)

theorem applyResultGo_flag (result : PyDict) :
    ∀ (settings : PyDict) (b : Bool), (result.map Prod.fst).Nodup →
      (applyResultGo settings b result).2 = (b || changesAdapters settings result) := by
  induction result with
  | nil =>
    intro settings b _
    simp [applyResultGo, changesAdapters, getKey]
  | cons kv rest ih =>
    intro settings b h
    obtain ⟨k, v⟩ := kv
    simp only [List.map_cons, List.nodup_cons] at h
    by_cases hk : k = "adapters"
    · subst hk
      have hrest : getKey rest "adapters" = Option.none := getKey_eq_none_of_not_mem _ _ h.1
      cases hres : getKey settings "adapters" with
      | none =>
        simp only [applyResultGo, hres]
        rw [ih _ _ h.2]
        simp [changesAdapters, getKey, hres, hrest]
      | some w =>
        by_cases hw : w = v
        · subst hw
          simp only [applyResultGo, hres, if_neg (fun hh : w ≠ w => hh rfl)]
          rw [ih _ _ h.2]
          simp [changesAdapters, getKey, hres, hrest]
        · simp only [applyResultGo, hres, if_pos hw]
          rw [ih _ _ h.2]
          have hca : changesAdapters (setKey settings "adapters" v) rest = false := by
            simp [changesAdapters, hrest]
          rw [hca]
          simp [changesAdapters, getKey, hres, hw]
    · cases hres : getKey settings k with
      | none =>
        simp only [applyResultGo, hres]
        rw [ih _ _ h.2]
        simp [changesAdapters, getKey, hk]
      | some w =>
        by_cases hw : w = v
        · subst hw
          simp only [applyResultGo, hres, if_neg (fun hh : w ≠ w => hh rfl)]
          rw [ih _ _ h.2]
          simp [changesAdapters, getKey, hk]
        · simp only [applyResultGo, hres, if_pos hw]
          rw [ih _ _ h.2]
          have h1 : getKey (setKey settings k v) "adapters" = getKey settings "adapters" :=
            getKey_setKey_ne _ _ _ _ (fun hh => hk hh.symm)
          have h2 : (decide (k = "adapters")) = false := by simp [hk]
          simp [changesAdapters, getKey, hk, h1, h2]

theorem applyResultGo_getKey (result : PyDict) :
    ∀ (settings : PyDict) (b : Bool) (k : String), (result.map Prod.fst).Nodup →
      getKey (applyResultGo settings b result).1 k =
        match getKey settings k, getKey result k with
        | some _, some v => some v
        | some w, Option.none => some w
        | Option.none, _ => Option.none := by
  induction result with
  | nil =>
    intro settings b k _
    cases hs : getKey settings k <;> simp [applyResultGo, getKey, hs]
  | cons kv rest ih =>
    intro settings b k h
    obtain ⟨k1, v1⟩ := kv
    simp only [List.map_cons, List.nodup_cons] at h
    by_cases hk : k1 = k
    · subst hk
      have hrest : getKey rest k1 = Option.none := getKey_eq_none_of_not_mem _ _ h.1
      cases hs : getKey settings k1 with
      | none =>
        simp only [applyResultGo, hs]
        rw [ih _ _ _ h.2]
        simp [getKey, hs, hrest]
      | some w =>
        by_cases hw : w = v1
        · subst hw
          simp only [applyResultGo, hs, if_neg (fun hh : w ≠ w => hh rfl)]
          rw [ih _ _ _ h.2]
          simp [getKey, hs, hrest]
        · simp only [applyResultGo, hs, if_pos hw]
          rw [ih _ _ _ h.2]
          simp [getKey, getKey_setKey_self, hrest, hs]
    · cases hs1 : getKey settings k1 with
      | none =>
        simp only [applyResultGo, hs1]
        rw [ih _ _ _ h.2]
        simp [getKey, hk]
      | some w =>
        by_cases hw : w = v1
        · subst hw
          simp only [applyResultGo, hs1, if_neg (fun hh : w ≠ w => hh rfl)]
          rw [ih _ _ _ h.2]
          simp [getKey, hk]
        · simp only [applyResultGo, hs1, if_pos hw]
          rw [ih _ _ _ h.2]
          rw [getKey_setKey_ne _ _ _ _ (fun hh => hk hh.symm)]
          simp [getKey, hk]

theorem getKey_append_singleton_none (m : PyDict) (k k1 : String) (v1 : PyVal)
    (h : getKey m k = Option.none) (hne : k ≠ k1) :
    getKey (m ++ [(k1, v1)]) k = Option.none := by
  rw [getKey_append_of_none _ _ _ h]
  have hne1 : k1 ≠ k := fun hh => hne hh.symm
  simp [getKey, hne1]

theorem params_foldl_eq_filter (settings : PyDict) (l : PyDict) :
    ∀ acc : PyDict, (l.map Prod.fst).Nodup →
      (∀ k, k ∈ l.map Prod.fst → getKey acc k = Option.none) →
      l.foldl (fun a kv => if changedPred settings kv = true then setKey a kv.1 kv.2 else a) acc =
        acc ++ l.filter (changedPred settings) := by
  induction l with
  | nil => intro acc _ _; simp
  | cons kv rest ih =>
    intro acc hnd hacc
    obtain ⟨k, v⟩ := kv
    simp only [List.map_cons, List.nodup_cons] at hnd
    by_cases hc : changedPred settings (k, v) = true
    · rw [List.foldl_cons, if_pos hc]
      have hnone : getKey acc k = Option.none := hacc k (by simp)
      rw [setKey_eq_append _ _ _ hnone]
      rw [ih (acc ++ [(k, v)]) hnd.2 ?side]
      · rw [List.filter_cons, if_pos hc, List.append_assoc]
        rfl
      case side =>
        intro k2 hk2
        have hne : k2 ≠ k := fun hh => hnd.1 (hh ▸ hk2)
        exact getKey_append_singleton_none _ _ _ _ (hacc k2 (by simp [hk2])) hne
    · rw [List.foldl_cons, if_neg hc]
      rw [ih acc hnd.2 (fun k2 hk2 => hacc k2 (by simp [hk2]))]
      rw [List.filter_cons, if_neg hc]

theorem addAdaptersGo_adapterNumbers (naming : PortNaming) (r : Nat) :
    ∀ (a : Nat) (st : Nat × Nat),
      (addAdaptersGo naming a r st).map EthernetPort.adapterNumber = List.range' a r := by
  induction r with
  | zero => intro a st; rfl
  | succ r ih =>
    intro a st
    simp only [addAdaptersGo, List.map_cons, List.range'_succ]
    rw [ih]

theorem addAdaptersGo_portNumber (naming : PortNaming) (r : Nat) :
    ∀ (a : Nat) (st : Nat × Nat), ∀ p ∈ addAdaptersGo naming a r st, p.portNumber = 0 := by
  induction r with
  | zero => intro a st p hp; simp [addAdaptersGo] at hp
  | succ r ih =>
    intro a st p hp
    simp only [addAdaptersGo, List.mem_cons] at hp
    rcases hp with rfl | hp
    · rfl
    · exact ih _ _ p hp

theorem addAdapters_fresh_adapterNumbers (naming : PortNaming) (n : Nat) :
    (addAdapters naming n []).map EthernetPort.adapterNumber = List.range n := by
  rw [addAdapters, List.nil_append, addAdaptersGo_adapterNumbers, List.range_eq_range']

theorem addAdapters_fresh_portNumber (naming : PortNaming) (n : Nat) :
    ∀ p ∈ addAdapters naming n [], p.portNumber = 0 := by
  intro p hp
  rw [addAdapters, List.nil_append] at hp
  exact addAdaptersGo_portNumber naming n 0 (0, 0) p hp

theorem div_mod_succ (m s : Nat) (hs : s ≠ 0) :
    ((m + 1) % s = if m % s + 1 = s then 0 else m % s + 1) ∧
    ((m + 1) / s = if m % s + 1 = s then m / s + 1 else m / s) := by
  have h0 : 0 < s := Nat.pos_of_ne_zero hs
  have hdm : s * (m / s) + m % s = m := Nat.div_add_mod m s
  by_cases h : m % s + 1 = s
  · have hm1 : m + 1 = s * (m / s + 1) := by
      calc m + 1 = s * (m / s) + m % s + 1 := by rw [hdm]
        _ = s * (m / s) + (m % s + 1) := by rw [Nat.add_assoc]
        _ = s * (m / s) + s := by rw [h]
        _ = s * (m / s + 1) := by rw [Nat.mul_succ]
    constructor
    · rw [if_pos h, hm1, Nat.mul_mod_right]
    · rw [if_pos h, hm1, Nat.mul_div_cancel_left _ h0]
  · have hlt : m % s + 1 < s := by
      have := Nat.mod_lt m h0
      omega
    have hm1 : m + 1 = s * (m / s) + (m % s + 1) := by
      rw [← Nat.add_assoc, hdm]
    constructor
    · rw [if_neg h, hm1, Nat.mul_add_mod, Nat.mod_eq_of_lt hlt]
    · rw [if_neg h, hm1, Nat.mul_add_div h0, Nat.div_eq_of_lt hlt, Nat.add_zero]

theorem counterPair_zero (s : Nat) : counterPair s 0 = (0, 0) := by
  simp [counterPair, formattedIndex, formattedSegment]

theorem portNameStep_formatted (naming : PortNaming) (a m : Nat)
    (h : ¬(firstPortTruthy naming.first_port_name = true ∧ a = 0)) :
    portNameStep naming a (counterPair naming.port_segment_size m) =
      (codePortName naming m, counterPair naming.port_segment_size (m + 1)) := by
  by_cases hs : naming.port_segment_size = 0
  · rw [portNameStep, if_neg h]
    simp [counterPair, formattedIndex, formattedSegment, hs, codePortName]
  · have h0 : 0 < naming.port_segment_size := Nat.pos_of_ne_zero hs
    have hmod := (div_mod_succ m naming.port_segment_size hs).1
    have hdiv := (div_mod_succ m naming.port_segment_size hs).2
    rw [portNameStep, if_neg h]
    by_cases hc : m % naming.port_segment_size + 1 = naming.port_segment_size
    · rw [if_pos hc] at hmod hdiv
      have hcond : naming.port_segment_size ≠ 0 ∧
          ((counterPair naming.port_segment_size m).1 + 1) % naming.port_segment_size = 0 := by
        refine ⟨hs, ?_⟩
        simp only [counterPair, formattedIndex, if_neg hs]
        rw [hc, Nat.mod_self]
      rw [if_pos hcond]
      simp [counterPair, formattedIndex, formattedSegment, hs, codePortName, hmod, hdiv]
    · have hlt : m % naming.port_segment_size + 1 < naming.port_segment_size := by
        have := Nat.mod_lt m h0
        omega
      rw [if_neg hc] at hmod hdiv
      have hcond : ¬(naming.port_segment_size ≠ 0 ∧
          ((counterPair naming.port_segment_size m).1 + 1) % naming.port_segment_size = 0) := by
        rintro ⟨-, hcc⟩
        simp only [counterPair, formattedIndex, if_neg hs] at hcc
        rw [Nat.mod_eq_of_lt hlt] at hcc
        omega
      rw [if_neg hcond]
      simp [counterPair, formattedIndex, formattedSegment, hs, codePortName, hmod, hdiv]

theorem addAdaptersGo_names (naming : PortNaming) (r : Nat) :
    ∀ (a m : Nat), (a ≠ 0 ∨ firstPortTruthy naming.first_port_name = false) →
      (addAdaptersGo naming a r (counterPair naming.port_segment_size m)).map EthernetPort.name =
        (List.range r).map (fun i => codePortName naming (m + i)) := by
  induction r with
  | zero => intro a m _; simp [addAdaptersGo]
  | succ r ih =>
    intro a m h
    have hno : ¬(firstPortTruthy naming.first_port_name = true ∧ a = 0) := by
      rcases h with h | h
      · rintro ⟨-, rfl⟩; exact h rfl
      · rintro ⟨h1, -⟩; rw [h] at h1; cases h1
    simp only [addAdaptersGo, portNameStep_formatted naming a m hno, List.map_cons]
    rw [ih (a + 1) (m + 1) (Or.inl (Nat.succ_ne_zero a))]
    rw [List.range_succ_eq_map, List.map_cons, List.map_map]
    simp only [Nat.add_zero]
    congr 1
    have hfun : ((fun i => codePortName naming (m + i)) ∘ Nat.succ) =
        fun i => codePortName naming (m + 1 + i) := by
      funext i
      simp only [Function.comp]
      congr 1
      omega
    rw [hfun]

theorem foldl_portInfoLines (l : List EthernetPort) :
    ∀ init : String,
      l.foldl
        (fun acc port =>
          acc ++ (if port.isFree = true then
                    "     " ++ port.name ++ " is empty\n"
                  else
                    "     " ++ port.name ++ " " ++ port.description ++ "\n"))
        init = init ++ portInfoLines l := by
  induction l with
  | nil => intro init; simp [portInfoLines, String.append_empty]
  | cons p rest ih =>
    intro init
    rw [List.foldl_cons, ih]
    show (init ++ portLineOf p) ++ portInfoLines rest = init ++ portInfoLines (p :: rest)
    rw [portInfoLines, String.append_assoc]

/-- Claim C8: info() reports the VM as started exactly when the node
status equals the started state and as stopped in every other case, and
is followed by one line per port of the port list, showing the port name
with "is empty" for a free port and the port name with its description
otherwise. -/
theorem c8_info (st : VirtualBoxVMState) (name : String) (localId : Int)
    (node_id : String) (computeId : String) (status : NodeStatus) :
    (stateWordOf status = "started" ↔ status = NodeStatus.started) ∧
    (stateWordOf status = "stopped" ↔ status ≠ NodeStatus.started) ∧
    info st name localId node_id computeId status =
      infoHeader st name localId node_id computeId (stateWordOf status) ++
        portInfoLines st.ports := by
  refine ⟨?_, ?_, ?_⟩
  · cases status <;> decide
  · cases status <;> decide
  · simp only [info, infoHeader]
    rw [foldl_portInfoLines, String.empty_append]

/-- Claim C9: serialConsole() returns False exactly when the
enable_remote_console setting is truthy, and True otherwise. -/
theorem c9_serialConsole (st : VirtualBoxVMState) (v : PyVal)
    (h : getKey st.settings "enable_remote_console" = some v) :
    (serialConsole st = some false ↔ v.truthy = true) ∧
    (serialConsole st = some true ↔ v.truthy = false) := by
  simp only [serialConsole, h]
  cases hv : v.truthy <;> simp [hv]

/-- Witness for C9 at a concrete state. -/
theorem c9_serialConsole_witness :
    (serialConsole sampleState = some false ↔ (PyVal.bool true).truthy = true) ∧
    (serialConsole sampleState = some true ↔ (PyVal.bool true).truthy = false) :=
  c9_serialConsole sampleState (PyVal.bool true) (by decide)

/-- Claim C10: in create() the node name defaults to vmname when the
optional name argument is absent or empty, and is the given name
otherwise. -/
theorem c10_create_name (st : VirtualBoxVMState) (vmname : String)
    (pnf : Nat → Nat → String) (pss : Nat) (fpn : String) (lc : Bool) (add : PyDict) :
    (create st vmname Option.none pnf pss fpn lc add).name = vmname ∧
    (create st vmname (some "") pnf pss fpn lc add).name = vmname ∧
    ∀ s, s ≠ "" → (create st vmname (some s) pnf pss fpn lc add).name = s := by
  refine ⟨rfl, ?_, ?_⟩
  · simp [create]
  · intro s hs
    simp [create, hs]

/-- Witness for C10 at concrete inputs. -/
theorem c10_create_name_witness :
    (create sampleState "vm" (some "custom") sampleNaming.port_name_format 0 "" false []).name =
      "custom" :=
  (c10_create_name sampleState "vm" sampleNaming.port_name_format 0 "" false []).2.2 "custom"
    (by decide)

/-- Claim C5: the settings record is changed by the update callback
pointwise as follows: a stored key takes the result's value exactly when
the key is present in the result (the stored value is overwritten only
when it differs, and otherwise already equals the result's value),
result keys that are not stored are ignored, and stored keys absent from
the result keep their previous values. -/
theorem c5_settings (st : VirtualBoxVMState) (result : PyDict)
    (h : (result.map Prod.fst).Nodup) (k : String) :
    getKey (updateCallback st result).settings k =
      match getKey st.settings k, getKey result k with
      | some _, some v => some v
      | some w, Option.none => some w
      | Option.none, _ => Option.none := by
  have hchar := applyResultGo_getKey result st.settings false k h
  by_cases hflag : (applyResultGo st.settings false result).2 = true
  · simp only [updateCallback, if_pos hflag]
    exact hchar
  · simp only [updateCallback, if_neg hflag]
    exact hchar

/-- Witness for C5 at a concrete state and result. -/
theorem c5_settings_witness :
    getKey (updateCallback sampleState [("ram", PyVal.int 512)]).settings "ram" =
      match getKey sampleState.settings "ram", getKey [("ram", PyVal.int 512)] "ram" with
      | some _, some v => some v
      | some w, Option.none => some w
      | Option.none, _ => Option.none :=
  c5_settings sampleState [("ram", PyVal.int 512)] (by decide) "ram"

/-- Claim C1: after a successful create cycle on a fresh node (create
followed by its callback) the port list has exactly one port per adapter
of the current "adapters" setting, with adapter numbers 0..adapters-1 in
order and every port number 0; the update callback preserves this
invariant; and under the invariant the port-list length equals the
integer value of the "adapters" setting. -/
theorem c1_ports_invariant :
    (∀ (st : VirtualBoxVMState) (vmname : String) (nm : Option String)
       (pnf : Nat → Nat → String) (pss : Nat) (fpn : String) (lc : Bool) (add : PyDict),
       st.ports = [] →
       portsInvariant (createCallback (create st vmname nm pnf pss fpn lc add).state)) ∧
    (∀ (st : VirtualBoxVMState) (result : PyDict),
       portsInvariant st → portsInvariant (updateCallback st result)) ∧
    (∀ (st : VirtualBoxVMState) (n : Int),
       portsInvariant st → getKey st.settings "adapters" = some (PyVal.int n) →
       st.ports.length = n.toNat) := by
  refine ⟨?_, ?_, ?_⟩
  · intro st vmname nm pnf pss fpn lc add hports
    have hp : (createCallback (create st vmname nm pnf pss fpn lc add).state).ports =
        addAdapters (create st vmname nm pnf pss fpn lc add).state.naming
          (adaptersCount st.settings) st.ports := rfl
    rw [hports] at hp
    have hs : (createCallback (create st vmname nm pnf pss fpn lc add).state).settings =
        st.settings := rfl
    refine ⟨?_, ?_⟩
    · rw [hp, hs]
      exact addAdapters_fresh_adapterNumbers _ _
    · rw [hp]
      exact addAdapters_fresh_portNumber _ _
  · intro st result hinv
    by_cases hflag : (applyResultGo st.settings false result).2 = true
    · have hp : (updateCallback st result).ports =
          addAdapters st.naming (adaptersCount (applyResultGo st.settings false result).1) [] := by
        simp only [updateCallback, if_pos hflag]
      have hs : (updateCallback st result).settings =
          (applyResultGo st.settings false result).1 := by
        simp only [updateCallback, if_pos hflag]
      refine ⟨?_, ?_⟩
      · rw [hp, hs]
        exact addAdapters_fresh_adapterNumbers _ _
      · rw [hp]
        exact addAdapters_fresh_portNumber _ _
    · have hp : (updateCallback st result).ports = st.ports := by
        simp only [updateCallback, if_neg hflag]
      have hs : (updateCallback st result).settings =
          (applyResultGo st.settings false result).1 := by
        simp only [updateCallback, if_neg hflag]
      have hflag2 : (applyResultGo st.settings false result).2 = false := by
        cases hh : (applyResultGo st.settings false result).2
        · rfl
        · exact absurd hh hflag
      have hadapt : getKey (applyResultGo st.settings false result).1 "adapters" =
          getKey st.settings "adapters" :=
        applyResultGo_adapters_of_flag_false result st.settings false hflag2
      have hcount : adaptersCount (applyResultGo st.settings false result).1 =
          adaptersCount st.settings := by
        simp only [adaptersCount, hadapt]
      refine ⟨?_, ?_⟩
      · rw [hp, hs, hcount]
        exact hinv.1
      · rw [hp]
        exact hinv.2
  · intro st n hinv hget
    have hlen : st.ports.length = adaptersCount st.settings := by
      have hmap := congrArg List.length hinv.1
      simpa using hmap
    rw [hlen]
    simp [adaptersCount, hget, PyVal.toAdapterCount]

/-- Witness for C1: the create cycle on a concrete fresh state. -/
theorem c1_ports_invariant_witness :
    portsInvariant (createCallback
      (create sampleState "vm" Option.none sampleNaming.port_name_format 0 "" false []).state) :=
  c1_ports_invariant.1 sampleState "vm" Option.none sampleNaming.port_name_format 0 "" false []
    rfl

/-- Claim C3: when the server result changes the "adapters" setting the
update callback rebuilds the whole port list from scratch for the new
adapter count (and the new setting value is the result's); when the
result does not change the "adapters" setting the port list is left
unchanged. -/
theorem c3_rebuild (st : VirtualBoxVMState) (result : PyDict)
    (h : (result.map Prod.fst).Nodup) :
    (changesAdapters st.settings result = true →
       (updateCallback st result).ports =
         addAdapters st.naming (adaptersCount (updateCallback st result).settings) [] ∧
       getKey (updateCallback st result).settings "adapters" = getKey result "adapters") ∧
    (changesAdapters st.settings result = false →
       (updateCallback st result).ports = st.ports) := by
  have hflag := applyResultGo_flag result st.settings false h
  rw [Bool.false_or] at hflag
  constructor
  · intro hch
    rw [hch] at hflag
    have hp : (updateCallback st result).ports =
        addAdapters st.naming (adaptersCount (applyResultGo st.settings false result).1) [] := by
      simp only [updateCallback, if_pos hflag]
    have hs : (updateCallback st result).settings =
        (applyResultGo st.settings false result).1 := by
      simp only [updateCallback, if_pos hflag]
    refine ⟨by rw [hp, hs], ?_⟩
    rw [hs]
    rcases hr : getKey result "adapters" with _ | v
    · simp [changesAdapters, hr] at hch
    · rcases hsa : getKey st.settings "adapters" with _ | w
      · simp [changesAdapters, hr, hsa] at hch
      · have hchar := applyResultGo_getKey result st.settings false "adapters" h
        rw [hchar, hsa, hr]
  · intro hch
    rw [hch] at hflag
    have hneg : ¬ (applyResultGo st.settings false result).2 = true := by
      rw [hflag]
      simp
    simp only [updateCallback, if_neg hneg]

/-- Witness for C3 at a concrete state and result. -/
theorem c3_rebuild_witness :
    (updateCallback sampleState [("adapters", PyVal.int 3)]).ports =
      addAdapters sampleState.naming
        (adaptersCount (updateCallback sampleState [("adapters", PyVal.int 3)]).settings) [] ∧
    getKey (updateCallback sampleState [("adapters", PyVal.int 3)]).settings "adapters" =
      getKey [("adapters", PyVal.int 3)] "adapters" :=
  (c3_rebuild sampleState [("adapters", PyVal.int 3)] (by decide)).1 (by decide)

/-- Counterexample for C6: after construction the settings record has no
linked-clone entry; the linked-clone flag lives in a separate instance
attribute, so the key set claimed for the settings record is not all
present. -/
theorem c6_counterexample :
    getKey (initState sampleTable []).settings "linked_clone" = Option.none ∧
    (initState sampleTable []).linked_clone = false := by decide

/-- Claim C6 (amended): after construction the settings record contains
vmname, console, console_host, adapters, use_any_adapter, adapter_type,
ram, headless, acpi_shutdown and enable_remote_console — vmname
defaulting to the empty string, console and console_host to None and the
rest to the shared settings table — while the linked-clone flag is a
separate instance attribute defaulting to False rather than a settings
key. -/
theorem c6_init_settings (tbl : VBoxVMSettingsTable) (base : PyDict) :
    getKey (initState tbl base).settings "vmname" = some (PyVal.str "") ∧
    getKey (initState tbl base).settings "console" = some PyVal.none ∧
    getKey (initState tbl base).settings "console_host" = some PyVal.none ∧
    getKey (initState tbl base).settings "adapters" = some tbl.adapters ∧
    getKey (initState tbl base).settings "use_any_adapter" = some tbl.use_any_adapter ∧
    getKey (initState tbl base).settings "adapter_type" = some tbl.adapter_type ∧
    getKey (initState tbl base).settings "ram" = some tbl.ram ∧
    getKey (initState tbl base).settings "headless" = some tbl.headless ∧
    getKey (initState tbl base).settings "acpi_shutdown" = some tbl.acpi_shutdown ∧
    getKey (initState tbl base).settings "enable_remote_console" =
      some tbl.enable_remote_console ∧
    (initState tbl base).linked_clone = false ∧
    (initState tbl base).ports = [] := by
  have hnd : ((initSettingsDict tbl).map Prod.fst).Nodup := by
    have hkeys : (initSettingsDict tbl).map Prod.fst =
        ["vmname", "console", "console_host", "adapters", "use_any_adapter",
         "adapter_type", "ram", "headless", "acpi_shutdown", "enable_remote_console"] := rfl
    rw [hkeys]
    decide
  have hset : (initState tbl base).settings = dictUpdate base (initSettingsDict tbl) := rfl
  refine ⟨?_, ?_, ?_, ?_, ?_, ?_, ?_, ?_, ?_, ?_, rfl, rfl⟩
  all_goals rw [hset, getKey_dictUpdate _ _ _ hnd]
  all_goals rfl

/-- Claim C7: create() records the linked-clone flag and the naming
configuration locally, leaves the settings and ports untouched, and the
params dict passed to the generic create dispatch is vmname and
linked_clone merged with every entry of additional_settings. -/
theorem c7_create (st : VirtualBoxVMState) (vmname : String) (nm : Option String)
    (pnf : Nat → Nat → String) (pss : Nat) (fpn : String) (lc : Bool) (add : PyDict)
    (h : (add.map Prod.fst).Nodup) :
    (create st vmname nm pnf pss fpn lc add).state.linked_clone = lc ∧
    (create st vmname nm pnf pss fpn lc add).state.naming.port_name_format = pnf ∧
    (create st vmname nm pnf pss fpn lc add).state.naming.port_segment_size = pss ∧
    (create st vmname nm pnf pss fpn lc add).state.naming.first_port_name = some fpn ∧
    (create st vmname nm pnf pss fpn lc add).state.settings = st.settings ∧
    (create st vmname nm pnf pss fpn lc add).state.ports = st.ports ∧
    (∀ k v, getKey add k = some v →
       getKey (create st vmname nm pnf pss fpn lc add).params k = some v) ∧
    (getKey add "vmname" = Option.none →
       getKey (create st vmname nm pnf pss fpn lc add).params "vmname" =
         some (PyVal.str vmname)) ∧
    (getKey add "linked_clone" = Option.none →
       getKey (create st vmname nm pnf pss fpn lc add).params "linked_clone" =
         some (PyVal.bool lc)) ∧
    (∀ k, k ≠ "vmname" → k ≠ "linked_clone" → getKey add k = Option.none →
       getKey (create st vmname nm pnf pss fpn lc add).params k = Option.none) := by
  have hbase : (create st vmname nm pnf pss fpn lc add).params =
      dictUpdate [("vmname", PyVal.str vmname), ("linked_clone", PyVal.bool lc)] add := rfl
  refine ⟨rfl, rfl, rfl, rfl, rfl, rfl, ?_, ?_, ?_, ?_⟩
  · intro k v hk
    rw [hbase, getKey_dictUpdate _ _ _ h, hk]
  · intro hk
    rw [hbase, getKey_dictUpdate _ _ _ h, hk]
    rfl
  · intro hk
    rw [hbase, getKey_dictUpdate _ _ _ h, hk]
    rfl
  · intro k h1 h2 hk
    rw [hbase, getKey_dictUpdate _ _ _ h, hk]
    have e1 : "vmname" ≠ k := fun hh => h1 hh.symm
    have e2 : "linked_clone" ≠ k := fun hh => h2 hh.symm
    simp [getKey, e1, e2]

/-- Witness for C7 at concrete inputs. -/
theorem c7_create_witness :
    (create sampleState "vm" Option.none sampleNaming.port_name_format 0 "" true
      [("ram", PyVal.int 512)]).state.linked_clone = true :=
  (c7_create sampleState "vm" Option.none sampleNaming.port_name_format 0 "" true
    [("ram", PyVal.int 512)] (by decide)).1

/-- Claim C4: update() forces vmname to the new name exactly when
new_settings carries a name differing from the current node name and the
VM is a linked clone; it forwards to the server-update dispatch exactly
the entries whose key exists in the stored settings with a differing
value, and issues no request when no entry changed. -/
theorem c4_update (st : VirtualBoxVMState) (currentName : String) (new_settings : PyDict)
    (h : (new_settings.map Prod.fst).Nodup) :
    (st.linked_clone = false → forcedSettings st currentName new_settings = new_settings) ∧
    (getKey new_settings "name" = Option.none →
       forcedSettings st currentName new_settings = new_settings) ∧
    (∀ v, getKey new_settings "name" = some v → v ≠ PyVal.str currentName →
       st.linked_clone = true →
       getKey (forcedSettings st currentName new_settings) "vmname" = some v ∧
       ∀ k, k ≠ "vmname" →
         getKey (forcedSettings st currentName new_settings) k = getKey new_settings k) ∧
    (updateParams st currentName new_settings =
       (forcedSettings st currentName new_settings).filter (changedPred st.settings)) ∧
    (update st currentName new_settings = Option.none ↔
       (forcedSettings st currentName new_settings).filter (changedPred st.settings) = []) ∧
    (∀ ps k v, update st currentName new_settings = some ps →
       ((k, v) ∈ ps ↔
         (k, v) ∈ forcedSettings st currentName new_settings ∧
         ∃ w, getKey st.settings k = some w ∧ w ≠ v)) := by
  have hndf : ((forcedSettings st currentName new_settings).map Prod.fst).Nodup := by
    rcases hn : getKey new_settings "name" with _ | v
    · simp only [forcedSettings, hn]
      exact h
    · simp only [forcedSettings, hn]
      by_cases hc : v ≠ PyVal.str currentName ∧ st.linked_clone = true
      · rw [if_pos hc]
        exact keys_nodup_setKey _ _ _ h
      · rw [if_neg hc]
        exact h
  have hparams : updateParams st currentName new_settings =
      (forcedSettings st currentName new_settings).filter (changedPred st.settings) := by
    have hfold := params_foldl_eq_filter st.settings
      (forcedSettings st currentName new_settings) [] hndf (fun k _ => rfl)
    simpa [updateParams] using hfold
  refine ⟨?_, ?_, ?_, hparams, ?_, ?_⟩
  · intro hlc
    rcases hn : getKey new_settings "name" with _ | v
    · simp only [forcedSettings, hn]
    · simp only [forcedSettings, hn]
      rw [if_neg (fun hc => by rw [hlc] at hc; exact Bool.false_ne_true hc.2)]
  · intro hn
    simp only [forcedSettings, hn]
  · intro v hv hne hlc
    have hforced : forcedSettings st currentName new_settings =
        setKey new_settings "vmname" v := by
      simp only [forcedSettings, hv]
      rw [if_pos ⟨hne, hlc⟩]
    constructor
    · rw [hforced]
      exact getKey_setKey_self _ _ _
    · intro k hk
      rw [hforced]
      exact getKey_setKey_ne _ _ _ _ hk
  · constructor
    · intro hu
      by_cases he : updateParams st currentName new_settings = []
      · rw [← hparams]
        exact he
      · exfalso
        have hsome : update st currentName new_settings =
            some (updateParams st currentName new_settings) := by
          simp only [update, if_neg he]
        rw [hsome] at hu
        exact Option.noConfusion hu
    · intro he
      have he2 : updateParams st currentName new_settings = [] := by
        rw [hparams, he]
      simp only [update, if_pos he2]
  · intro ps k v hu
    have he : ¬ updateParams st currentName new_settings = [] := by
      intro he
      have hnone : update st currentName new_settings = Option.none := by
        simp only [update, if_pos he]
      rw [hnone] at hu
      exact Option.noConfusion hu
    have hps : ps = updateParams st currentName new_settings := by
      have hsome : update st currentName new_settings =
          some (updateParams st currentName new_settings) := by
        simp only [update, if_neg he]
      rw [hsome] at hu
      injection hu with hu2
      exact hu2.symm
    rw [hps, hparams, List.mem_filter]
    constructor
    · rintro ⟨hmem, hpred⟩
      refine ⟨hmem, ?_⟩
      rcases hw : getKey st.settings k with _ | w
      · simp [changedPred, hw] at hpred
      · simp only [changedPred, hw] at hpred
        exact ⟨w, rfl, of_decide_eq_true hpred⟩
    · rintro ⟨hmem, w, hw, hwv⟩
      refine ⟨hmem, ?_⟩
      simp only [changedPred, hw]
      exact decide_eq_true hwv

/-- Witness for C4 at a concrete state and update dict. -/
theorem c4_update_witness :
    updateParams sampleState "node1" [("ram", PyVal.int 512)] =
      (forcedSettings sampleState "node1" [("ram", PyVal.int 512)]).filter
        (changedPred sampleState.settings) :=
  (c4_update sampleState "node1" [("ram", PyVal.int 512)] (by decide)).2.2.2.1

/-- Counterexample for C2: with the format rendering segment slash
interface, segment size 2 and no override, the code names the third
adapter E1/0 — the interface index is reset to zero when the segment
counter increments — while the claim's formula, whose interface index
increments once per adapter, yields E1/2. -/
theorem c2_counterexample :
    (addAdapters segmentedNaming 3 []).map EthernetPort.name ≠
      (List.range 3).map (claimPortName segmentedNaming) := by decide

/-- Claim C2 (amended): the port names produced when adding adapters
follow the code's formula — the interface index increments once per
formatted port but resets to zero whenever the segment counter
increments; the segment counter increments after every
port_segment_size formatted ports when a segment size is configured;
and a truthy first-port override replaces the name of adapter 0 and
consumes no interface index, so later adapters are shifted by one
formatted position. -/
theorem c2_names (naming : PortNaming) (n : Nat) :
    (addAdapters naming n []).map EthernetPort.name =
      (List.range n).map (expectedPortName naming) := by
  rw [addAdapters, List.nil_append]
  by_cases htr : firstPortTruthy naming.first_port_name = true
  · cases n with
    | zero => rfl
    | succ r =>
      have hstep : portNameStep naming 0 (0, 0) =
          (naming.first_port_name.getD "", (0, 0)) := by
        rw [portNameStep, if_pos ⟨htr, rfl⟩]
      simp only [addAdaptersGo, hstep, List.map_cons]
      have h00 : ((0 : Nat), (0 : Nat)) = counterPair naming.port_segment_size 0 :=
        (counterPair_zero _).symm
      rw [h00, addAdaptersGo_names naming r 1 0 (Or.inl one_ne_zero)]
      rw [List.range_succ_eq_map, List.map_cons, List.map_map]
      have hhead : expectedPortName naming 0 = naming.first_port_name.getD "" := by
        simp [expectedPortName, htr]
      rw [hhead]
      congr 1
      have hfun : (expectedPortName naming ∘ Nat.succ) =
          fun i => codePortName naming (0 + i) := by
        funext i
        simp [Function.comp, expectedPortName, htr, Nat.zero_add]
      rw [hfun]
  · have hfalse : firstPortTruthy naming.first_port_name = false := by
      cases hh : firstPortTruthy naming.first_port_name
      · rfl
      · exact absurd hh htr
    have h00 : ((0 : Nat), (0 : Nat)) = counterPair naming.port_segment_size 0 :=
      (counterPair_zero _).symm
    rw [h00, addAdaptersGo_names naming n 0 0 (Or.inr hfalse)]
    have hfun : (fun i => codePortName naming (0 + i)) = expectedPortName naming := by
      funext i
      simp [expectedPortName, hfalse, Nat.zero_add]
    rw [hfun]
